import Mathlib

/-!
Verification of the StrongR registration and leaderboard client
(src/src/App.tsx, duplicated in src/unnamed/part_000).

The file shallowly embeds the pieces of the app the claims are about:
the JavaScript helpers it relies on (truncated remainder, array indexing
with undefined out of bounds, string-or-default, trim, ToNumber), the
ordinal formatter, the derived query-parameter values, the payload
builder, the submit handler as a state transformer, the table renderer,
and the rank lines of the leaderboards step.

JavaScript numbers are modelled as NaN, signed infinity, or an exact
rational; the claims settled here depend only on NaN-ness, zero tests
and equality of values produced from short literals, where the rational
model agrees with IEEE doubles.
-/

namespace StrongR

/-- JavaScript number: NaN, signed infinity (the Bool is true for the
negative one), or a finite value modelled as an exact rational. -/
inductive JSNum where
  | nan : JSNum
  | inf : Bool → JSNum
  | val : ℚ → JSNum
deriving DecidableEq

/-- JavaScript remainder `a % b` on integers: truncated division, the
result carries the sign of the dividend. -/
def jsRem (a b : Int) : Int :=
  (if a < 0 then -1 else 1) * ((a.natAbs % b.natAbs : Nat) : Int)

/-- JavaScript array read `arr[i]` on a string array: `undefined` (none)
for a negative or out-of-bounds index. -/
def jsArrGet (l : List String) (i : Int) : Option String :=
  if 0 ≤ i then l.get? i.toNat else none

/-- JavaScript `a || b` where `a` is a string or undefined: falls through
to `b` on undefined and on the empty string (both falsy). -/
def jsOrUndef (a b : Option String) : Option String :=
  match a with
  | none => b
  | some s => if s = "" then b else some s

/-- JavaScript `a || b` where `a` is a string or undefined and `b` a
string: the value actually used by the app for defaulting. -/
def jsOrStr (a : Option String) (b : String) : String :=
  match a with
  | none => b
  | some s => if s = "" then b else s

/-- Suffix chosen by `ordinal` (App.tsx line 38): with `s = ["th", "st",
"nd", "rd"]` and `v = n % 100`, the value of
`s[(v - 20) % 10] || s[v] || s[0]`. -/
def ordinalSuffix (v : Int) : String :=
  let s : List String := ["th", "st", "nd", "rd"]
  (jsOrUndef (jsOrUndef (jsArrGet s (jsRem (v - 20) 10)) (jsArrGet s v))
    (jsArrGet s 0)).getD "undefined"

/-- The function `ordinal` of App.tsx lines 34 to 39: decimal string of n
followed by the ordinal suffix. -/
def ordinal (n : Int) : String :=
  toString n ++ ordinalSuffix (jsRem n 100)

/-- The suffix the specification predicts for `ordinal(n)`, written from
the words of the spec: "st" when n mod 10 = 1 and n mod 100 is not in
[11,13]; "nd" when n mod 10 = 2 and n mod 100 is not 12; "rd" when
n mod 10 = 3 and n mod 100 is not 13; "th" otherwise. -/
def specOrdinalSuffix (n : Int) : String :=
  if n % 10 = 1 ∧ ¬(11 ≤ n % 100 ∧ n % 100 ≤ 13) then "st"
  else if n % 10 = 2 ∧ n % 100 ≠ 12 then "nd"
  else if n % 10 = 3 ∧ n % 100 ≠ 13 then "rd"
  else "th"

theorem ordinalSuffix_eq_spec_of_lt :
    ∀ m : Nat, m < 100 → ordinalSuffix (m : Int) = specOrdinalSuffix (m : Int) := by
  decide

theorem jsRem_of_nonneg {a : Int} (b : Int) (ha : 0 ≤ a) :
    jsRem a b = ((a.natAbs % b.natAbs : Nat) : Int) := by
  unfold jsRem
  rw [if_neg (not_lt.mpr ha), one_mul]

/-- C1: for every integer n at least 1, ordinal n is the decimal string of
n followed by "st" when n mod 10 = 1 and n mod 100 is outside [11,13],
"nd" when n mod 10 = 2 and n mod 100 is not 12, "rd" when n mod 10 = 3
and n mod 100 is not 13, and "th" otherwise. -/
theorem ordinal_matches_spec (n : Int) (h : 1 ≤ n) :
    ordinal n = toString n ++ specOrdinalSuffix n := by
  have hnn : 0 ≤ n := le_trans (by norm_num) h
  have hrem : jsRem n 100 = n % 100 := by
    have h1 : (((100 : Int).natAbs : Nat) : Int) = 100 := rfl
    rw [jsRem_of_nonneg 100 hnn, Int.natCast_mod, Int.natAbs_of_nonneg hnn, h1]
  have hv0 : 0 ≤ n % 100 := Int.emod_nonneg n (by norm_num)
  have hv1 : n % 100 < 100 := Int.emod_lt_of_pos n (by norm_num)
  have hm : ((n % 100).toNat : Int) = n % 100 := Int.toNat_of_nonneg hv0
  have hmlt : (n % 100).toNat < 100 := by omega
  have hbridge : ordinalSuffix (n % 100) = specOrdinalSuffix (n % 100) := by
    rw [← hm]
    exact ordinalSuffix_eq_spec_of_lt (n % 100).toNat hmlt
  have hspec : specOrdinalSuffix (n % 100) = specOrdinalSuffix n := by
    unfold specOrdinalSuffix
    rw [Int.emod_emod_of_dvd n (by norm_num : (10 : Int) ∣ 100),
      Int.emod_emod_of_dvd n (by norm_num : (100 : Int) ∣ 100)]
  calc ordinal n = toString n ++ ordinalSuffix (jsRem n 100) := rfl
    _ = toString n ++ ordinalSuffix (n % 100) := by rw [hrem]
    _ = toString n ++ specOrdinalSuffix (n % 100) := by rw [hbridge]
    _ = toString n ++ specOrdinalSuffix n := by rw [hspec]

theorem ordinal_matches_spec_witness :
    (1 : Int) ≤ 102 ∧ ordinal 102 = toString (102 : Int) ++ specOrdinalSuffix 102 :=
  ⟨by norm_num, ordinal_matches_spec 102 (by norm_num)⟩

example : ordinal 1 = "1st" := by decide
example : ordinal 2 = "2nd" := by decide
example : ordinal 3 = "3rd" := by decide
example : ordinal 4 = "4th" := by decide
example : ordinal 12 = "12th" := by decide
example : ordinal 13 = "13th" := by decide
example : ordinal 20 = "20th" := by decide
example : ordinal 111 = "111th" := by decide
example : ordinal 11 = "11th" := by decide
example : ordinal 21 = "21st" := by decide
example : ordinal 102 = "102nd" := by decide

/-- Whitespace stripped by JavaScript trimming and by ToNumber on strings:
the common WhiteSpace and LineTerminator code points. -/
def isJsSpace (c : Char) : Bool :=
  c == ' ' || c == '\t' || c == '\n' || c == '\r' || c.val == 11 || c.val == 12 ||
    c.val == 0xA0 || c.val == 0x2028 || c.val == 0x2029 || c.val == 0xFEFF

/-- Strip leading and trailing JavaScript whitespace from a character list. -/
def jsTrimList (l : List Char) : List Char :=
  ((l.dropWhile isJsSpace).reverse.dropWhile isJsSpace).reverse

/-- JavaScript String.prototype.trim, used on the name field. -/
def jsTrim (s : String) : String :=
  String.mk (jsTrimList s.toList)

/-- Numeric value of a decimal digit character. -/
def digitVal (c : Char) : Nat := c.toNat - 48

/-- Value of a string of decimal digits. -/
def digitsVal (l : List Char) : Nat :=
  l.foldl (fun a c => a * 10 + digitVal c) 0

/-- Value of a hexadecimal digit character, or none. -/
def hexDigitVal (c : Char) : Option Nat :=
  if c.isDigit then some (c.toNat - 48)
  else if 97 ≤ c.toNat ∧ c.toNat ≤ 102 then some (c.toNat - 87)
  else if 65 ≤ c.toNat ∧ c.toNat ≤ 70 then some (c.toNat - 55)
  else none

/-- Value of an octal digit character, or none. -/
def octDigitVal (c : Char) : Option Nat :=
  if 48 ≤ c.toNat ∧ c.toNat ≤ 55 then some (c.toNat - 48) else none

/-- Value of a binary digit character, or none. -/
def binDigitVal (c : Char) : Option Nat :=
  if c == '0' then some 0 else if c == '1' then some 1 else none

/-- Value of a digit string in the given radix; none when any character
is not a digit of that radix. -/
def radixVal (radix : Nat) (digit : Char → Option Nat) (l : List Char) : Option Nat :=
  l.foldl
    (fun acc c =>
      match acc, digit c with
      | some a, some d => some (a * radix + d)
      | _, _ => none)
    (some 0)

/-- Scale a rational by a signed power of ten (decimal exponent part). -/
def applyExp (q : ℚ) (e : Int) : ℚ :=
  if 0 ≤ e then q * (10 : ℚ) ^ e.toNat else q / (10 : ℚ) ^ (-e).toNat

/-- Parse the optional ExponentPart of a decimal literal; the whole
remaining input must be the exponent (or empty). -/
def parseExpPart : List Char → Option Int
  | [] => some 0
  | c :: rest =>
    if c == 'e' || c == 'E' then
      match rest with
      | '+' :: ds =>
        if ds ≠ [] ∧ ds.all Char.isDigit then some ((digitsVal ds : Nat) : Int) else none
      | '-' :: ds =>
        if ds ≠ [] ∧ ds.all Char.isDigit then some (-((digitsVal ds : Nat) : Int)) else none
      | ds =>
        if ds ≠ [] ∧ ds.all Char.isDigit then some ((digitsVal ds : Nat) : Int) else none
    else none

/-- Parse an unsigned DecimalLiteral (integer part, optional fraction,
optional exponent) consuming the whole input; none when malformed. -/
def parseDecLit (l : List Char) : Option ℚ :=
  let ip := l.takeWhile Char.isDigit
  let rest := l.dropWhile Char.isDigit
  match rest with
  | '.' :: rest2 =>
    let fp := rest2.takeWhile Char.isDigit
    let rest3 := rest2.dropWhile Char.isDigit
    if ip = [] ∧ fp = [] then none
    else
      match parseExpPart rest3 with
      | some e =>
        some (applyExp ((digitsVal ip : ℚ) + (digitsVal fp : ℚ) / (10 : ℚ) ^ fp.length) e)
      | none => none
  | _ =>
    if ip = [] then none
    else
      match parseExpPart rest with
      | some e => some (applyExp ((digitsVal ip : ℚ)) e)
      | none => none

/-- Parse an optionally signed decimal literal or Infinity. -/
def parseSignedDec (l : List Char) : JSNum :=
  let signBody : Bool × List Char :=
    match l with
    | '+' :: r => (false, r)
    | '-' :: r => (true, r)
    | r => (false, r)
  let neg := signBody.1
  let body := signBody.2
  if body = "Infinity".toList then JSNum.inf neg
  else
    match parseDecLit body with
    | some q => JSNum.val (if neg then -q else q)
    | none => JSNum.nan

/-- ECMAScript ToNumber applied to a string (the behaviour of `Number(s)`
for a string s): trimmed empty input is 0; hex, octal and binary prefixed
literals; otherwise an optionally signed decimal literal or Infinity;
anything else is NaN. Finite values are kept exact. -/
def jsStringToNumber (s : String) : JSNum :=
  match jsTrimList s.toList with
  | [] => JSNum.val 0
  | l =>
    match l with
    | '0' :: c :: rest =>
      if c == 'x' || c == 'X' then
        if rest = [] then JSNum.nan
        else
          match radixVal 16 hexDigitVal rest with
          | some v => JSNum.val (v : ℚ)
          | none => JSNum.nan
      else if c == 'o' || c == 'O' then
        if rest = [] then JSNum.nan
        else
          match radixVal 8 octDigitVal rest with
          | some v => JSNum.val (v : ℚ)
          | none => JSNum.nan
      else if c == 'b' || c == 'B' then
        if rest = [] then JSNum.nan
        else
          match radixVal 2 binDigitVal rest with
          | some v => JSNum.val (v : ℚ)
          | none => JSNum.nan
      else parseSignedDec l
    | _ => parseSignedDec l

/-- JavaScript comparison `x > 0` on a number: false for NaN. -/
def JSNum.gtZero : JSNum → Bool
  | JSNum.nan => false
  | JSNum.inf neg => !neg
  | JSNum.val q => decide (0 < q)

example : jsStringToNumber "" = JSNum.val 0 := by decide
example : jsStringToNumber "   " = JSNum.val 0 := by decide
example : jsStringToNumber "abc" = JSNum.nan := by decide
example : jsStringToNumber "12abc" = JSNum.nan := by decide
example : jsStringToNumber "1e" = JSNum.nan := by decide
example : jsStringToNumber "Infinity" = JSNum.inf false := by decide
example : jsStringToNumber "-Infinity" = JSNum.inf true := by decide

example : jsStringToNumber "  12.34 " = JSNum.val (617 / 50) := by
  have h : jsStringToNumber "  12.34 "
      = JSNum.val (applyExp ((digitsVal ['1', '2'] : ℚ)
          + (digitsVal ['3', '4'] : ℚ) / (10 : ℚ) ^ (2 : Nat)) 0) := rfl
  have d1 : digitsVal ['1', '2'] = 12 := by decide
  have d2 : digitsVal ['3', '4'] = 34 := by decide
  rw [h, d1, d2]
  norm_num [applyExp]

example : jsStringToNumber "-3" = JSNum.val (-3) := by
  have h : jsStringToNumber "-3"
      = JSNum.val (-(applyExp ((digitsVal ['3'] : ℚ)) 0)) := rfl
  have d1 : digitsVal ['3'] = 3 := by decide
  rw [h, d1]
  norm_num [applyExp]

/-- The QR query parameters read once at page load (App.tsx 41 to 44):
none models an absent key. -/
structure QueryParams where
  event : Option String
  device : Option String
  country : Option String
  time : Option String
  t : Option String
  nonce : Option String
  sig : Option String
  countryName : Option String
  localDT : Option String
deriving DecidableEq

/-- Query params with every key absent, for concrete instantiations. -/
def qpNone : QueryParams :=
  { event := none, device := none, country := none, time := none, t := none,
    nonce := none, sig := none, countryName := none, localDT := none }

/-- The derived value `countryCode = qp.country || ""` (App.tsx 146). -/
def countryCode (qp : QueryParams) : String :=
  jsOrStr qp.country ""

/-- The derived value `countryName = qp.countryName || qp.country || ""`
(App.tsx 147). -/
def countryNameOf (qp : QueryParams) : String :=
  jsOrStr qp.countryName (jsOrStr qp.country "")

/-- The derived value `timeSec = Number(qp.time || 0)` (App.tsx 148): a
missing or empty time falls back to the number 0 before coercion,
otherwise the string is coerced with ToNumber. -/
def timeSec (qp : QueryParams) : JSNum :=
  match qp.time with
  | none => JSNum.val 0
  | some s => if s = "" then JSNum.val 0 else jsStringToNumber s

/-- The guard of the rank-preview effect, `if (countryCode && timeSec > 0)
run()` (App.tsx 164): true exactly when the fetch is issued. -/
def rankPreviewFetches (qp : QueryParams) : Bool :=
  (countryCode qp != "") && (timeSec qp).gtZero

/-- Hero Location stat, `countryName || "—"` (App.tsx 63), on the prop
passed by App (always a defined string). -/
def heroLocation (countryName : Option String) : String :=
  jsOrStr countryName "—"

/-- Hero Date and Time stat, `localDT || "—"` (App.tsx 64). -/
def heroDateTime (localDT : Option String) : String :=
  jsOrStr localDT "—"

/-- Location stat as instantiated by App (App.tsx 229): Hero receives the
derived countryName string. -/
def appHeroLocation (qp : QueryParams) : String :=
  heroLocation (some (countryNameOf qp))

/-- Date and Time stat as instantiated by App (App.tsx 229): Hero
receives qp.localDT directly. -/
def appHeroDateTime (qp : QueryParams) : String :=
  heroDateTime qp.localDT

/-- C6: the rank preview request is issued exactly when countryCode is
nonempty and timeSec > 0; a missing time query parameter gives timeSec 0,
and a non-numeric time (NaN) never triggers the fetch. -/
theorem rank_preview_guard (qp : QueryParams) :
    (rankPreviewFetches qp = true ↔
      (countryCode qp ≠ "" ∧ (timeSec qp).gtZero = true)) ∧
    (countryCode qp = "" → rankPreviewFetches qp = false) ∧
    (timeSec qp = JSNum.val 0 → rankPreviewFetches qp = false) ∧
    (qp.time = none → timeSec qp = JSNum.val 0) ∧
    (∀ s, qp.time = some s → jsStringToNumber s = JSNum.nan →
      rankPreviewFetches qp = false) := by
  refine ⟨?_, ?_, ?_, ?_, ?_⟩
  · simp [rankPreviewFetches, Bool.and_eq_true, bne_iff_ne]
  · intro h
    simp [rankPreviewFetches, h]
  · intro h
    simp [rankPreviewFetches, h, JSNum.gtZero]
  · intro h
    simp [timeSec, h]
  · intro s hs hnan
    have hse : s ≠ "" := by
      intro he
      rw [he] at hnan
      exact absurd hnan (by decide)
    simp [rankPreviewFetches, timeSec, hs, hse, hnan, JSNum.gtZero]

theorem rank_preview_guard_witness :
    rankPreviewFetches { qpNone with country := some "US", time := some "abc" } = false :=
  (rank_preview_guard { qpNone with country := some "US", time := some "abc" }).2.2.2.2
    "abc" rfl (by decide)

/-- C8: with countryName and country both absent the Location stat shows
the em dash; with localDT absent the Date and Time stat shows the em
dash; a missing time query parameter coerces to the number 0. -/
theorem missing_param_defaults (qp : QueryParams) :
    (qp.countryName = none → qp.country = none → appHeroLocation qp = "—") ∧
    (qp.localDT = none → appHeroDateTime qp = "—") ∧
    (qp.time = none → timeSec qp = JSNum.val 0) := by
  refine ⟨?_, ?_, ?_⟩
  · intro h1 h2
    simp [appHeroLocation, heroLocation, countryNameOf, jsOrStr, h1, h2]
  · intro h
    simp [appHeroDateTime, heroDateTime, jsOrStr, h]
  · intro h
    simp [timeSec, h]

theorem missing_param_defaults_witness :
    appHeroLocation qpNone = "—" ∧ appHeroDateTime qpNone = "—" ∧
      timeSec qpNone = JSNum.val 0 :=
  ⟨(missing_param_defaults qpNone).1 rfl rfl,
    (missing_param_defaults qpNone).2.1 rfl,
    (missing_param_defaults qpNone).2.2 rfl⟩

/-- A leaderboard row as produced by the backend (App.tsx 17 to 26).
Numbers coming from JSON.parse are always finite, so they are modelled
as rationals; optional and nullable fields collapse to Option. -/
structure LeaderboardRow where
  id : Option Int
  name : String
  age : Option ℚ
  gender : Option String
  country : String
  time_seconds : ℚ
  created_at : Option String
  t_qr : Option String
deriving DecidableEq

/-- The MeRow type (App.tsx 28 to 31): a LeaderboardRow with optional
rank fields (ranks are backend-produced integers). -/
structure MeRow extends LeaderboardRow where
  rank_country : Option Int
  rank_global : Option Int
deriving DecidableEq

/-- The highlight test of the table body (App.tsx 113): `!!highlight &&
highlight.name === r.name && highlight.time_seconds === r.time_seconds &&
highlight.country === r.country`. -/
def isYouRow (highlight : Option MeRow) (r : LeaderboardRow) : Bool :=
  match highlight with
  | none => false
  | some h => h.name == r.name && h.time_seconds == r.time_seconds
      && h.country == r.country

/-- One rendered body row: the displayed 1-based position, the source row
whose fields fill the cells, and whether it is highlighted. -/
structure RenderedRow where
  index : Nat
  row : LeaderboardRow
  isYou : Bool
deriving DecidableEq

/-- The table body (App.tsx 112 to 125): one rendered row per input row,
in input order, displaying idx + 1 and the highlight flag. -/
def renderTable (rows : List LeaderboardRow) (highlight : Option MeRow) :
    List RenderedRow :=
  rows.enum.map fun p => { index := p.1 + 1, row := p.2, isYou := isYouRow highlight p.2 }

theorem renderTable_mem_isYou {rows : List LeaderboardRow} {hl : Option MeRow}
    {rr : RenderedRow} (hmem : rr ∈ renderTable rows hl) :
    rr.isYou = isYouRow hl rr.row := by
  unfold renderTable at hmem
  obtain ⟨p, _, hp⟩ := List.mem_map.mp hmem
  rw [← hp]

theorem isYouRow_iff (hl : Option MeRow) (r : LeaderboardRow) :
    isYouRow hl r = true ↔
      ∃ h, hl = some h ∧ h.name = r.name ∧ h.time_seconds = r.time_seconds ∧
        h.country = r.country := by
  cases hl with
  | none => simp [isYouRow]
  | some h =>
    simp [isYouRow, Bool.and_eq_true, beq_iff_eq, and_assoc]

/-- C5: a rendered row is highlighted exactly when its name, time_seconds
and country all equal those of the highlight row; consequently two
rendered rows agreeing on those three fields are highlighted alike, so
duplicates of the matching triple are all highlighted. -/
theorem highlight_by_value (rows : List LeaderboardRow) (hl : Option MeRow)
    (rr : RenderedRow) (hmem : rr ∈ renderTable rows hl) :
    (rr.isYou = true ↔
      ∃ h, hl = some h ∧ h.name = rr.row.name ∧
        h.time_seconds = rr.row.time_seconds ∧ h.country = rr.row.country) ∧
    (∀ rr2, rr2 ∈ renderTable rows hl →
      rr.row.name = rr2.row.name → rr.row.time_seconds = rr2.row.time_seconds →
      rr.row.country = rr2.row.country → rr.isYou = rr2.isYou) := by
  constructor
  · rw [renderTable_mem_isYou hmem]
    exact isYouRow_iff hl rr.row
  · intro rr2 hmem2 h1 h2 h3
    rw [renderTable_mem_isYou hmem, renderTable_mem_isYou hmem2]
    cases hl with
    | none => simp [isYouRow]
    | some h => simp [isYouRow, h1, h2, h3]

/-- Concrete row used by the witnesses. -/
def rowEx : LeaderboardRow :=
  { id := none, name := "Ann", age := none, gender := none, country := "US",
    time_seconds := 10, created_at := none, t_qr := none }

/-- Concrete me-record used by the witnesses. -/
def meEx : MeRow :=
  { toLeaderboardRow := rowEx, rank_country := some 3, rank_global := some 7 }

theorem highlight_by_value_witness :
    ((⟨1, rowEx, true⟩ : RenderedRow).isYou = true ↔
      ∃ h, (some meEx : Option MeRow) = some h ∧
        h.name = (⟨1, rowEx, true⟩ : RenderedRow).row.name ∧
        h.time_seconds = (⟨1, rowEx, true⟩ : RenderedRow).row.time_seconds ∧
        h.country = (⟨1, rowEx, true⟩ : RenderedRow).row.country) ∧
    (∀ rr2, rr2 ∈ renderTable [rowEx] (some meEx) →
      (⟨1, rowEx, true⟩ : RenderedRow).row.name = rr2.row.name →
      (⟨1, rowEx, true⟩ : RenderedRow).row.time_seconds = rr2.row.time_seconds →
      (⟨1, rowEx, true⟩ : RenderedRow).row.country = rr2.row.country →
      (⟨1, rowEx, true⟩ : RenderedRow).isYou = rr2.isYou) :=
  highlight_by_value [rowEx] (some meEx) ⟨1, rowEx, true⟩ (by decide)

/-- C9: the renderer preserves length and order, shows the 1-based array
position as the index of every row, and derives the highlight flag from
the row itself; it is a pure function of the input list and highlight
row, so re-rendering identical inputs yields the identical output. -/
theorem renderTable_order (rows : List LeaderboardRow) (hl : Option MeRow) :
    (renderTable rows hl).length = rows.length ∧
    (∀ i, (renderTable rows hl).get? i =
      (rows.get? i).map fun r => { index := i + 1, row := r, isYou := isYouRow hl r }) := by
  constructor
  · simp [renderTable]
  · intro i
    simp [renderTable, List.get?_map, List.get?_enum, Option.map_map]
    rfl

/-- The form state (App.tsx 140): name, age and gender as raw strings. -/
structure FormState where
  name : String
  age : String
  gender : String
deriving DecidableEq

/-- The registration payload (App.tsx 175 to 188). Absent query keys stay
absent (undefined); age is null (none) or a coerced number; gender is
null (none) or the selected string. -/
structure Payload where
  event : Option String
  device : Option String
  country : Option String
  time : Option String
  t : Option String
  nonce : Option String
  sig : Option String
  name : String
  age : Option JSNum
  gender : Option String
deriving DecidableEq

/-- Payload construction performed by onSubmit (App.tsx 175 to 188):
six QR fields verbatim, `name: form.name?.trim()`,
`age: form.age ? Number(form.age) : null`,
`gender: form.gender || null`. -/
def buildPayload (qp : QueryParams) (form : FormState) : Payload :=
  { event := qp.event
    device := qp.device
    country := qp.country
    time := qp.time
    t := qp.t
    nonce := qp.nonce
    sig := qp.sig
    name := jsTrim form.name
    age := if form.age = "" then none else some (jsStringToNumber form.age)
    gender := if form.gender = "" then none else some form.gender }

/-- The two steps of the view controller (App.tsx 135). -/
inductive Step where
  | form : Step
  | leaderboards : Step
deriving DecidableEq

/-- The mutable state owned by App that onSubmit touches (App.tsx 135
to 144). -/
structure AppState where
  step : Step
  submitting : Bool
  error : String
  me : Option MeRow
  lbCountry : List LeaderboardRow
  lbGlobal : List LeaderboardRow
deriving DecidableEq

/-- The parsed JSON body of a successful registration response (App.tsx
198 to 202): the cast is unchecked, so each field may be absent. -/
structure RegisterResponse where
  me : Option MeRow
  leaderboard_country : Option (List LeaderboardRow)
  leaderboard_global : Option (List LeaderboardRow)
deriving DecidableEq

/-- Outcome of the network interaction inside onSubmit. A network error
or a parse error carries the message of the thrown value and its string
conversion; an HTTP failure carries the body text read from the non-ok
response; success carries the parsed body. -/
inductive RegisterResult where
  | networkError (message : String) (strConv : String) : RegisterResult
  | httpFailure (bodyText : String) : RegisterResult
  | parseError (message : String) (strConv : String) : RegisterResult
  | success (resp : RegisterResponse) : RegisterResult
deriving DecidableEq

/-- Whether the outcome takes the catch branch of onSubmit. -/
def RegisterResult.isFailure : RegisterResult → Bool
  | RegisterResult.success _ => false
  | _ => true

/-- The onSubmit handler (App.tsx 170 to 212) as a state transformer over
the fetch outcome: sets submitting and clears the error up front; on a
non-ok response throws `new Error(msg || "Failed to register")`; every
caught failure stores `err?.message || String(err)`; on success stores
me and both leaderboards (absent ones as empty lists) and moves to the
leaderboards step; finally resets submitting. -/
def submitOutcome (st : AppState) (res : RegisterResult) : AppState :=
  let st1 : AppState := { st with submitting := true, error := "" }
  let st2 : AppState :=
    match res with
    | RegisterResult.networkError msg conv =>
      { st1 with error := jsOrStr (some msg) conv }
    | RegisterResult.httpFailure body =>
      let message := jsOrStr (some body) "Failed to register"
      { st1 with error := jsOrStr (some message) (String.append "Error: " message) }
    | RegisterResult.parseError msg conv =>
      { st1 with error := jsOrStr (some msg) conv }
    | RegisterResult.success resp =>
      { st1 with
        me := resp.me
        lbCountry := resp.leaderboard_country.getD []
        lbGlobal := resp.leaderboard_global.getD []
        step := Step.leaderboards }
  { st2 with submitting := false }

/-- C2 counterexample: the form state with the non-blank, non-numeric age
string "abc" submits age NaN, not null, refuting the claim that the age
field is never NaN for every form state. -/
theorem age_nan_counterexample :
    (buildPayload qpNone { name := "A", age := "abc", gender := "" }).age
      = some JSNum.nan := by
  decide

/-- C2 amended: the submitted age is null exactly when the age string is
blank, and otherwise is the ToNumber coercion of the string, which is a
number for numeric strings but NaN for non-numeric ones; it is never an
empty string (the field holds null or a number by construction). -/
theorem age_field_amended (qp : QueryParams) (form : FormState) :
    (form.age = "" → (buildPayload qp form).age = none) ∧
    (form.age ≠ "" → (buildPayload qp form).age = some (jsStringToNumber form.age)) := by
  constructor
  · intro h
    simp [buildPayload, h]
  · intro h
    simp [buildPayload, h]

theorem age_field_amended_witness :
    (buildPayload qpNone { name := "A", age := "", gender := "" }).age = none :=
  (age_field_amended qpNone { name := "A", age := "", gender := "" }).1 rfl

/-- Concrete state used by the witnesses: the initial App state. -/
def stEx : AppState :=
  { step := Step.form, submitting := false, error := "", me := none,
    lbCountry := [], lbGlobal := [] }

/-- C3: on a non-ok HTTP response the displayed error is the body text,
or "Failed to register" when the body is empty; the step stays form, me
and both leaderboards are untouched, and submitting is reset to false. -/
theorem http_failure_behavior (st : AppState) (body : String)
    (h : st.step = Step.form) :
    (submitOutcome st (RegisterResult.httpFailure body)).error
        = (if body = "" then "Failed to register" else body) ∧
    (submitOutcome st (RegisterResult.httpFailure body)).step = Step.form ∧
    (submitOutcome st (RegisterResult.httpFailure body)).me = st.me ∧
    (submitOutcome st (RegisterResult.httpFailure body)).lbCountry = st.lbCountry ∧
    (submitOutcome st (RegisterResult.httpFailure body)).lbGlobal = st.lbGlobal ∧
    (submitOutcome st (RegisterResult.httpFailure body)).submitting = false := by
  unfold submitOutcome
  by_cases hb : body = "" <;>
    simp [hb, h, jsOrStr]

theorem http_failure_behavior_witness :
    (submitOutcome stEx (RegisterResult.httpFailure "duplicate entry")).error
        = (if "duplicate entry" = "" then "Failed to register" else "duplicate entry") ∧
    (submitOutcome stEx (RegisterResult.httpFailure "duplicate entry")).step = Step.form ∧
    (submitOutcome stEx (RegisterResult.httpFailure "duplicate entry")).me = stEx.me ∧
    (submitOutcome stEx (RegisterResult.httpFailure "duplicate entry")).lbCountry = stEx.lbCountry ∧
    (submitOutcome stEx (RegisterResult.httpFailure "duplicate entry")).lbGlobal = stEx.lbGlobal ∧
    (submitOutcome stEx (RegisterResult.httpFailure "duplicate entry")).submitting = false :=
  http_failure_behavior stEx "duplicate entry" rfl

/-- C4: a successful response stores me and both leaderboards (an absent
leaderboard field becoming the empty list) in the same transition that
moves the step to leaderboards, while every failure outcome leaves me,
both leaderboards and the step exactly as they were: no partial-success
state exists. -/
theorem submit_atomicity (st : AppState) (res : RegisterResult) :
    (∀ resp, res = RegisterResult.success resp →
      (submitOutcome st res).me = resp.me ∧
      (submitOutcome st res).lbCountry = resp.leaderboard_country.getD [] ∧
      (submitOutcome st res).lbGlobal = resp.leaderboard_global.getD [] ∧
      (submitOutcome st res).step = Step.leaderboards) ∧
    (res.isFailure = true →
      (submitOutcome st res).me = st.me ∧
      (submitOutcome st res).lbCountry = st.lbCountry ∧
      (submitOutcome st res).lbGlobal = st.lbGlobal ∧
      (submitOutcome st res).step = st.step) := by
  cases res <;>
    simp [submitOutcome, RegisterResult.isFailure]

/-- Concrete successful response used by the witness: the country
leaderboard is present, the global one absent. -/
def respEx : RegisterResponse :=
  { me := some meEx, leaderboard_country := some [rowEx], leaderboard_global := none }

theorem submit_atomicity_witness :
    (submitOutcome stEx (RegisterResult.success respEx)).me = respEx.me ∧
    (submitOutcome stEx (RegisterResult.success respEx)).lbCountry
        = respEx.leaderboard_country.getD [] ∧
    (submitOutcome stEx (RegisterResult.success respEx)).lbGlobal
        = respEx.leaderboard_global.getD [] ∧
    (submitOutcome stEx (RegisterResult.success respEx)).step = Step.leaderboards :=
  (submit_atomicity stEx (RegisterResult.success respEx)).1 respEx rfl

/-- C7: the payload copies the QR fields event, device, country, time, t,
nonce and sig verbatim from the query parameters, sets name to the
trimmed form name, age to the coercion of the age string or null when it
is blank, and gender to the form gender or null when it is blank. -/
theorem payload_fields (qp : QueryParams) (form : FormState) :
    (buildPayload qp form).event = qp.event ∧
    (buildPayload qp form).device = qp.device ∧
    (buildPayload qp form).country = qp.country ∧
    (buildPayload qp form).time = qp.time ∧
    (buildPayload qp form).t = qp.t ∧
    (buildPayload qp form).nonce = qp.nonce ∧
    (buildPayload qp form).sig = qp.sig ∧
    (buildPayload qp form).name = jsTrim form.name ∧
    (buildPayload qp form).age
        = (if form.age = "" then none else some (jsStringToNumber form.age)) ∧
    (buildPayload qp form).gender
        = (if form.gender = "" then none else some form.gender) := by
  refine ⟨rfl, rfl, rfl, rfl, rfl, rfl, rfl, rfl, rfl, rfl⟩

/-- Truthiness of `me?.rank_country` in JavaScript: false for a missing
record or missing rank, and false for the number 0. -/
def truthyRank : Option Int → Bool
  | none => false
  | some r => r != 0

/-- The country-rank line of the leaderboards step (App.tsx 292 to 294):
rendered, with ordinal text, exactly when `me?.rank_country` is truthy. -/
def countryRankLine (me : Option MeRow) : Option String :=
  match me with
  | none => none
  | some m =>
    match m.rank_country with
    | none => none
    | some r => if r = 0 then none else some (ordinal r)

/-- The global-rank line (App.tsx 295 to 297). -/
def globalRankLine (me : Option MeRow) : Option String :=
  match me with
  | none => none
  | some m =>
    match m.rank_global with
    | none => none
    | some r => if r = 0 then none else some (ordinal r)

/-- C10: a rank line is rendered exactly when the corresponding rank
field is present and nonzero (truthy); a rank of 0 or an absent field
yields no line, and a rendered line is the ordinal of its nonzero rank. -/
theorem rank_lines_truthy (me : Option MeRow) :
    ((countryRankLine me).isSome = true ↔
      ∃ m r, me = some m ∧ m.rank_country = some r ∧ r ≠ 0) ∧
    ((globalRankLine me).isSome = true ↔
      ∃ m r, me = some m ∧ m.rank_global = some r ∧ r ≠ 0) ∧
    (∀ m r, me = some m → m.rank_country = some r → r ≠ 0 →
      countryRankLine me = some (ordinal r)) ∧
    (∀ m r, me = some m → m.rank_global = some r → r ≠ 0 →
      globalRankLine me = some (ordinal r)) := by
  refine ⟨?_, ?_, ?_, ?_⟩
  · cases me with
    | none => simp [countryRankLine]
    | some m =>
      cases hr : m.rank_country with
      | none => simp [countryRankLine, hr]
      | some r =>
        by_cases h0 : r = 0 <;> simp [countryRankLine, hr, h0]
  · cases me with
    | none => simp [globalRankLine]
    | some m =>
      cases hr : m.rank_global with
      | none => simp [globalRankLine, hr]
      | some r =>
        by_cases h0 : r = 0 <;> simp [globalRankLine, hr, h0]
  · intro m r hm hr h0
    simp [countryRankLine, hm, hr, h0]
  · intro m r hm hr h0
    simp [globalRankLine, hm, hr, h0]

theorem rank_lines_truthy_witness :
    countryRankLine (some meEx) = some (ordinal 3) :=
  (rank_lines_truthy (some meEx)).2.2.1 meEx 3 rfl rfl (by decide)

end StrongR
